import Mathlib

/-! Shallow embedding of the CHIP-8 emulator core (`chip8.h` / `chip8.cpp`):
the machine state owned by `class CHIP8`, the opcode field extractors, the
fetch-decode-execute cycle of `CHIP8::emulate`, and the 60 Hz timer block at
its top.  Machine integers are `Nat` with an explicit `% 2^w` wherever the
C++ integer conversions truncate; the checked container accesses
(`std::vector::at` / `std::array::at`), which throw `std::out_of_range`,
are modelled by `Except Fault`; the observable side effects (the
illegal-opcode diagnostic on `stderr`, `m_sound.play()` / `m_sound.stop()`)
are returned as an explicit list of events. -/

/-- A thrown `std::out_of_range` from a checked `.at` access — fatal to the
run.  Tagged by the container that was indexed out of bounds: `memory`
(`MemoryFault`), the call `stack` (`StackFault`), or the 16-entry `m_keymap`,
together with the offending index. -/
inductive Fault where
  | memFault : Nat → Fault
  | stackFault : Nat → Fault
  | keyFault : Nat → Fault
deriving DecidableEq

/-- Observable side effects of one emulation cycle or timer tick:
`illegalOpcode op addr` is the `"Illegal opcode"` diagnostic printed to
`stderr` (opcode value and the address `PC - 2` it was fetched from);
`startTone` is `m_sound.play()`; `stopTone` is `m_sound.stop()`. -/
inductive Event where
  | illegalOpcode : Nat → Nat → Event
  | startTone : Event
  | stopTone : Event
deriving DecidableEq

/-- The CHIP-8 machine state: the data members of `class CHIP8`.
`V`, `memory`, `DT`, `ST` hold 8-bit values; `PC`, `I` and the `stack`
entries hold 16-bit values; `SP` is 8-bit; `keys` gives the `KeyState` of
each of the 16 keypad entries (`true` = `Pressed`); `keyCaptured` is
`m_key_captured`; `pixels` holds the 64×32 frame buffer of 32-bit pixels
(`m_pixels`); `rand` is the value the next `std::rand()` call yields. -/
structure Chip8 where
  PC : Nat
  SP : Nat
  I : Nat
  V : Nat → Nat
  memory : Nat → Nat
  stack : Nat → Nat
  DT : Nat
  ST : Nat
  keys : Nat → Bool
  keyCaptured : Bool
  pixels : Nat → Nat
  rand : Nat

/-- `type(opcode)`: the high nibble, `(opcode & 0xF000) >> 12`. -/
def type (op : Nat) : Nat := op / 4096 % 16

/-- `NNN(opcode) = opcode & 0x0FFF`. -/
def NNN (op : Nat) : Nat := op % 4096

/-- `NN(opcode) = opcode & 0x00FF`. -/
def NN (op : Nat) : Nat := op % 256

/-- `N(opcode) = opcode & 0x000F`. -/
def N (op : Nat) : Nat := op % 16

/-- `VX(opcode) = (opcode & 0x0F00) >> 8`. -/
def VX (op : Nat) : Nat := op / 256 % 16

/-- `VY(opcode) = (opcode & 0x00F0) >> 4`. -/
def VY (op : Nat) : Nat := op / 16 % 16

/-- Pointwise update of an array modelled as a function. -/
def upd (f : Nat → Nat) (i v : Nat) : Nat → Nat := fun j => if j = i then v else f j

/-- 8-bit wrapping subtraction, the effect of `uint8_t x -= y` (operands
are promoted to `int`, the difference is converted back to `uint8_t`). -/
def sub8 (a b : Nat) : Nat := (a % 256 + 256 - b % 256) % 256

/-- Linear scan of the key map starting at index `i` with `c` entries left,
for the first key whose state is `Pressed`: the `std::find_if` (followed by
`std::distance`) in the FX0A handler. -/
def findPressedFrom (keys : Nat → Bool) (i : Nat) : Nat → Option Nat
  | 0 => none
  | c + 1 => if keys i then some i else findPressedFrom keys (i + 1) c

/-- Index of the first pressed key among the 16 keymap entries, if any. -/
def firstPressed (keys : Nat → Bool) : Option Nat := findPressedFrom keys 0 16

/-- Frame-buffer offset of one sprite pixel in the DXYN handler:
`x = (VX + x_sprite) & (width - 1)`, `y = (VY + y_sprite) & (height - 1)`,
`offset = x + width * y` with `width = 64`, `height = 32`. -/
def drawOffset (vx vy xsp ysp : Nat) : Nat :=
  (vx + xsp) % 64 + 64 * ((vy + ysp) % 32)

/-- The iteration points of the DXYN double loop, in source order:
`y_sprite` ranging over `[0, n)` outside, `x_sprite` over `[0, 8)` inside. -/
def drawPts (n : Nat) : List (Nat × Nat) :=
  (List.range n).flatMap fun ysp => (List.range 8).map fun xsp => (ysp, xsp)

/-- The DXYN loop body, iterated over the remaining points: read the sprite
row with `memory.at(I + y_sprite)` (which can throw), test the sprite bit
`& (0x80 >> x_sprite)`, set `V[15]` on collision, and XOR the pixel with
`0xFFFFFFFF`.  Register reads go through the current state, exactly as the
C++ reads the members afresh at every iteration. -/
def drawGo (op : Nat) : List (Nat × Nat) → Chip8 → Except Fault Chip8
  | [], s => .ok s
  | (ysp, xsp) :: rest, s =>
    if s.I + ysp < 4096 then
      if s.memory (s.I + ysp) &&& (0x80 >>> xsp) ≠ 0 then
        let offset := drawOffset (s.V (VX op)) (s.V (VY op)) xsp ysp
        let s1 := if s.pixels offset ≠ 0 then { s with V := upd s.V 15 1 } else s
        drawGo op rest
          { s1 with pixels := upd s1.pixels offset (s1.pixels offset ^^^ 0xFFFFFFFF) }
      else
        drawGo op rest s
    else
      .error (.memFault (s.I + ysp))

/-- The FX55 loop with `c` registers left to store:
`memory.at(I) = V[i]; ++I`. -/
def storeRegs (s : Chip8) (i : Nat) : Nat → Except Fault Chip8
  | 0 => .ok s
  | c + 1 =>
    if s.I < 4096 then
      storeRegs
        { s with memory := upd s.memory s.I (s.V i), I := (s.I + 1) % 65536 } (i + 1) c
    else .error (.memFault s.I)

/-- The FX65 loop with `c` registers left to fill:
`V[i] = memory.at(I); ++I`. -/
def readRegs (s : Chip8) (i : Nat) : Nat → Except Fault Chip8
  | 0 => .ok s
  | c + 1 =>
    if s.I < 4096 then
      readRegs
        { s with V := upd s.V i (s.memory s.I), I := (s.I + 1) % 65536 } (i + 1) c
    else .error (.memFault s.I)

/-- The opcode decoder `switch` of `CHIP8::emulate`, applied to the state
whose PC has already been advanced past the fetched opcode. -/
def exec (s : Chip8) (op : Nat) : Except Fault (Chip8 × List Event) :=
  if type op = 0x0 then
    if NNN op = 0x0E0 then
      -- CLR: clear screen
      .ok ({ s with pixels := fun _ => 0 }, [])
    else if NNN op = 0x0EE then
      -- RET: --SP; PC = stack.at(SP)
      let sp := (s.SP + 255) % 256
      if sp < 16 then .ok ({ s with SP := sp, PC := s.stack sp }, [])
      else .error (.stackFault sp)
    else
      -- call RCA 1802 program ... treat as NOP
      .ok (s, [])
  else if type op = 0x1 then
    -- JP addr
    .ok ({ s with PC := NNN op }, [])
  else if type op = 0x2 then
    -- CALL addr: stack.at(SP) = PC; ++SP; PC = NNN
    if s.SP < 16 then
      .ok ({ s with stack := upd s.stack s.SP s.PC, SP := (s.SP + 1) % 256,
                    PC := NNN op }, [])
    else .error (.stackFault s.SP)
  else if type op = 0x3 then
    -- SE Vx, byte
    .ok (if s.V (VX op) = NN op then { s with PC := (s.PC + 2) % 65536 } else s, [])
  else if type op = 0x4 then
    -- SNE Vx, byte
    .ok (if s.V (VX op) ≠ NN op then { s with PC := (s.PC + 2) % 65536 } else s, [])
  else if type op = 0x5 then
    -- SE Vx, Vy
    .ok (if s.V (VX op) = s.V (VY op) then { s with PC := (s.PC + 2) % 65536 } else s, [])
  else if type op = 0x6 then
    -- LD Vx, byte
    .ok ({ s with V := upd s.V (VX op) (NN op) }, [])
  else if type op = 0x7 then
    -- ADD Vx, byte (VF carry not set)
    .ok ({ s with V := upd s.V (VX op) ((s.V (VX op) + NN op) % 256) }, [])
  else if type op = 0x8 then
    if N op = 0x0 then
      -- LD Vx, Vy
      .ok ({ s with V := upd s.V (VX op) (s.V (VY op)) }, [])
    else if N op = 0x1 then
      -- OR Vx, Vy
      .ok ({ s with V := upd s.V (VX op) (s.V (VX op) ||| s.V (VY op)) }, [])
    else if N op = 0x2 then
      -- AND Vx, Vy
      .ok ({ s with V := upd s.V (VX op) (s.V (VX op) &&& s.V (VY op)) }, [])
    else if N op = 0x3 then
      -- XOR Vx, Vy
      .ok ({ s with V := upd s.V (VX op) (s.V (VX op) ^^^ s.V (VY op)) }, [])
    else if N op = 0x4 then
      -- ADD Vx, Vy: V[15] written first, then V[VX] = temp & 0xFF
      let temp := s.V (VX op) + s.V (VY op)
      let s1 := { s with V := upd s.V 15 (if temp > 255 then 1 else 0) }
      .ok ({ s1 with V := upd s1.V (VX op) (temp % 256) }, [])
    else if N op = 0x5 then
      -- SUB Vx, Vy: V[15] written first, then V[VX] -= V[VY]
      let s1 := { s with V := upd s.V 15 (if s.V (VY op) > s.V (VX op) then 0 else 1) }
      .ok ({ s1 with V := upd s1.V (VX op) (sub8 (s1.V (VX op)) (s1.V (VY op))) }, [])
    else if N op = 0x6 then
      -- SHR Vx: V[15] = LSb first, then V[VX] >>= 1
      let s1 := { s with V := upd s.V 15 (if s.V (VX op) &&& 0x01 ≠ 0 then 1 else 0) }
      .ok ({ s1 with V := upd s1.V (VX op) (s1.V (VX op) / 2) }, [])
    else if N op = 0x7 then
      -- SUBN Vx, Vy: V[15] written first, then V[VX] = V[VY] - V[VX]
      let s1 := { s with V := upd s.V 15 (if s.V (VX op) > s.V (VY op) then 0 else 1) }
      .ok ({ s1 with V := upd s1.V (VX op) (sub8 (s1.V (VY op)) (s1.V (VX op))) }, [])
    else if N op = 0xE then
      -- SHL Vx: V[15] = MSb first, then V[VX] <<= 1
      let s1 := { s with V := upd s.V 15 (if s.V (VX op) &&& 0x80 ≠ 0 then 1 else 0) }
      .ok ({ s1 with V := upd s1.V (VX op) (s1.V (VX op) * 2 % 256) }, [])
    else
      -- illegal opcode
      .ok (s, [.illegalOpcode op (s.PC - 2)])
  else if type op = 0x9 then
    -- SNE Vx, Vy
    .ok (if s.V (VX op) ≠ s.V (VY op) then { s with PC := (s.PC + 2) % 65536 } else s, [])
  else if type op = 0xA then
    -- LD I, addr
    .ok ({ s with I := NNN op }, [])
  else if type op = 0xB then
    -- JP V0: PC = V0 + NNN
    .ok ({ s with PC := (s.V 0 + NNN op) % 65536 }, [])
  else if type op = 0xC then
    -- RND Vx, byte: VX = (rand % 256) & NN
    .ok ({ s with V := upd s.V (VX op) (s.rand % 256 &&& NN op) }, [])
  else if type op = 0xD then
    -- DRW Vx, Vy, nibble
    match drawGo op (drawPts (N op)) { s with V := upd s.V 15 0 } with
    | .ok s1 => .ok (s1, [])
    | .error f => .error f
  else if type op = 0xE then
    if NN op = 0x9E then
      -- SKP Vx: keymap.at(V[VX]) checked
      if s.V (VX op) < 16 then
        .ok (if s.keys (s.V (VX op)) then { s with PC := (s.PC + 2) % 65536 } else s, [])
      else .error (.keyFault (s.V (VX op)))
    else if NN op = 0xA1 then
      -- SKNP Vx
      if s.V (VX op) < 16 then
        .ok (if ¬ s.keys (s.V (VX op)) then { s with PC := (s.PC + 2) % 65536 } else s, [])
      else .error (.keyFault (s.V (VX op)))
    else
      -- illegal opcode
      .ok (s, [.illegalOpcode op (s.PC - 2)])
  else if type op = 0xF then
    if NN op = 0x07 then
      -- LD Vx, DT
      .ok ({ s with V := upd s.V (VX op) s.DT }, [])
    else if NN op = 0x0A then
      -- LD Vx, K (blocking): PC -= 2 models the uint16_t decrement
      if ¬ s.keyCaptured then
        match firstPressed s.keys with
        | some k =>
          .ok ({ s with V := upd s.V (VX op) k, keyCaptured := true,
                        PC := (s.PC + 65534) % 65536 }, [])
        | none =>
          .ok ({ s with PC := (s.PC + 65534) % 65536 }, [])
      else
        if s.V (VX op) < 16 then
          if s.keys (s.V (VX op)) = false then
            .ok ({ s with keyCaptured := false }, [])
          else
            .ok ({ s with PC := (s.PC + 65534) % 65536 }, [])
        else .error (.keyFault (s.V (VX op)))
    else if NN op = 0x15 then
      -- LD DT, Vx
      .ok ({ s with DT := s.V (VX op) }, [])
    else if NN op = 0x18 then
      -- LD ST, Vx; if (ST) m_sound.play()
      .ok ({ s with ST := s.V (VX op) },
           if s.V (VX op) ≠ 0 then [.startTone] else [])
    else if NN op = 0x1E then
      -- ADD I, Vx; V[15] = (I > 0x0FFF) ? 1 : 0 with the updated I
      let i := (s.I + s.V (VX op)) % 65536
      .ok ({ s with I := i, V := upd s.V 15 (if i > 0x0FFF then 1 else 0) }, [])
    else if NN op = 0x29 then
      -- LD F, Vx: I = V[VX] * 5
      .ok ({ s with I := s.V (VX op) * 5 % 65536 }, [])
    else if NN op = 0x33 then
      -- LD B, Vx: BCD of V[VX] at memory.at(I), .at(I+1), .at(I+2)
      if s.I < 4096 then
        let m1 := upd s.memory s.I (s.V (VX op) / 100)
        if s.I + 1 < 4096 then
          let m2 := upd m1 (s.I + 1) (s.V (VX op) / 10 % 10)
          if s.I + 2 < 4096 then
            .ok ({ s with memory := upd m2 (s.I + 2) (s.V (VX op) % 10) }, [])
          else .error (.memFault (s.I + 2))
        else .error (.memFault (s.I + 1))
      else .error (.memFault s.I)
    else if NN op = 0x55 then
      -- LD [I], Vx
      match storeRegs s 0 (VX op + 1) with
      | .ok s1 => .ok (s1, [])
      | .error f => .error f
    else if NN op = 0x65 then
      -- LD Vx, [I]
      match readRegs s 0 (VX op + 1) with
      | .ok s1 => .ok (s1, [])
      | .error f => .error f
    else
      -- illegal opcode
      .ok (s, [.illegalOpcode op (s.PC - 2)])
  else
    -- illegal opcode (unreachable: type op < 16 is exhaustive above)
    .ok (s, [.illegalOpcode op (s.PC - 2)])

/-- The 60 Hz timer block at the top of `CHIP8::emulate`, executed when at
least 16 ms have elapsed on `timer_clock`: decrement DT if nonzero,
decrement ST if nonzero, and call `m_sound.stop()` whenever ST is zero
afterwards. -/
def tick_timers (s : Chip8) : Chip8 × List Event :=
  let s1 := if s.DT > 0 then { s with DT := s.DT - 1 } else s
  let s2 := if s1.ST > 0 then { s1 with ST := s1.ST - 1 } else s1
  if s2.ST = 0 then (s2, [.stopTone]) else (s2, [])

/-- One fetch-decode-execute cycle of `CHIP8::emulate` (without the timer
block): fetch the big-endian opcode with `memory.at(PC)` and
`memory.at(PC + 1)`, advance PC by 2, and dispatch. -/
def step (s : Chip8) : Except Fault (Chip8 × List Event) :=
  if s.PC < 4096 then
    if s.PC + 1 < 4096 then
      exec { s with PC := (s.PC + 2) % 65536 }
        (s.memory s.PC % 256 * 256 + s.memory (s.PC + 1) % 256)
    else .error (.memFault (s.PC + 1))
  else .error (.memFault s.PC)

/-- The whole of `CHIP8::emulate`: the timer block (when the 60 Hz clock
has fired, signalled here by `tick`) followed by fetch-decode-execute. -/
def emulate (tick : Bool) (s : Chip8) : Except Fault (Chip8 × List Event) :=
  if tick then
    let t := tick_timers s
    match step t.1 with
    | .ok (s1, evs) => .ok (s1, t.2 ++ evs)
    | .error f => .error f
  else step s

/-- Post-state of a successful step (the pre-state on a fault); used to
evaluate concrete runs. -/
def stepState (s : Chip8) : Chip8 :=
  match step s with
  | .ok (s1, _) => s1
  | .error _ => s

/-- Events of a successful step (empty on a fault). -/
def stepEvents (s : Chip8) : List Event :=
  match step s with
  | .ok (_, evs) => evs
  | .error _ => []

/-- Post-state of a successful draw-loop run, for concrete evaluation. -/
def drawGoState (op : Nat) (pts : List (Nat × Nat)) (s : Chip8) : Chip8 :=
  match drawGo op pts s with
  | .ok s1 => s1
  | .error _ => s

/-- A concrete machine state for tests: PC at the program origin `0x200`,
all registers, timers, keys and pixels cleared, memory given by an
association list of address/byte pairs. -/
def testState (prog : List (Nat × Nat)) : Chip8 where
  PC := 0x200
  SP := 0
  I := 0
  V := fun _ => 0
  memory := fun a => ((prog.find? (fun p => p.1 = a)).map Prod.snd).getD 0
  stack := fun _ => 0
  DT := 0
  ST := 0
  keys := fun _ => false
  keyCaptured := false
  pixels := fun _ => 0
  rand := 0

/-- A concrete draw test state: `D011` (draw 1-row sprite at (V0, V1)) at
PC = 0x200 and the 8-wide one-row sprite byte `0x80` at I = 0x300. -/
def drawState : Chip8 :=
  { testState [(0x200, 0xD0), (0x201, 0x11), (0x300, 0x80)] with I := 0x300 }

/-- A concrete draw test state with X = 0xF: `DF01` (draw 1-row sprite at
(VF, V0)) at PC = 0x200, VF = 5, and the sprite byte `0x80` at I = 0x300. -/
def drawStateF : Chip8 :=
  { testState [(0x200, 0xDF), (0x201, 0x01), (0x300, 0x80)] with
      I := 0x300
      V := upd (fun _ => 0) 15 5 }

theorem upd_same (f : Nat → Nat) (i v : Nat) : upd f i v i = v := by
  simp [upd]

theorem upd_ne (f : Nat → Nat) (i v j : Nat) (h : j ≠ i) : upd f i v j = f j := by
  simp [upd, h]

theorem step_eq (s : Chip8) (op : Nat)
    (hPC : s.PC + 1 < 4096) (hop : op < 65536)
    (hb1 : s.memory s.PC = op / 256) (hb2 : s.memory (s.PC + 1) = op % 256) :
    step s = exec { s with PC := (s.PC + 2) % 65536 } op := by
  unfold step
  rw [if_pos (show s.PC < 4096 by omega), if_pos hPC, hb1, hb2]
  congr 1
  omega

/-- C8: `7XNN` adds the immediate to VX with 8-bit wraparound, writes no
flag (every register other than VX — in particular VF when X ≠ 0xF — is
untouched), advances PC by exactly 2 and leaves I, SP, the stack, the
timers, the keys and the frame buffer unchanged, producing no event. -/
theorem C8_add_imm_frame (s : Chip8) (op : Nat)
    (hPC : s.PC + 1 < 4096) (hop : op < 65536)
    (hb1 : s.memory s.PC = op / 256) (hb2 : s.memory (s.PC + 1) = op % 256)
    (htype : type op = 0x7) :
    ∃ s1, step s = .ok (s1, []) ∧
      s1.V (VX op) = (s.V (VX op) + NN op) % 256 ∧
      (∀ j, j ≠ VX op → s1.V j = s.V j) ∧
      (VX op ≠ 15 → s1.V 15 = s.V 15) ∧
      s1.PC = (s.PC + 2) % 65536 ∧
      s1.I = s.I ∧ s1.SP = s.SP ∧ s1.stack = s.stack ∧
      s1.DT = s.DT ∧ s1.ST = s.ST ∧ s1.pixels = s.pixels ∧
      s1.memory = s.memory ∧ s1.keys = s.keys ∧ s1.keyCaptured = s.keyCaptured := by
  rw [step_eq s op hPC hop hb1 hb2]
  unfold exec
  rw [htype]
  norm_num
  refine ⟨upd_same _ _ _, fun j hj => upd_ne _ _ _ _ hj, fun h15 => upd_ne _ _ _ _ (Ne.symm h15)⟩

/-- C8 witness: `0x7105` (add 5 to V1) at PC = 0x200 on the cleared test
state satisfies the hypotheses and the conclusion of `C8_add_imm_frame`. -/
theorem C8_add_imm_frame_witness :
    (testState [(0x200, 0x71), (0x201, 0x05)]).PC + 1 < 4096 ∧
    (0x7105 : Nat) < 65536 ∧
    (testState [(0x200, 0x71), (0x201, 0x05)]).memory
      (testState [(0x200, 0x71), (0x201, 0x05)]).PC = 0x7105 / 256 ∧
    type 0x7105 = 0x7 ∧
    (∃ s1, step (testState [(0x200, 0x71), (0x201, 0x05)]) = .ok (s1, []) ∧
      s1.V (VX 0x7105) =
        ((testState [(0x200, 0x71), (0x201, 0x05)]).V (VX 0x7105) + NN 0x7105) % 256 ∧
      (∀ j, j ≠ VX 0x7105 → s1.V j = (testState [(0x200, 0x71), (0x201, 0x05)]).V j) ∧
      (VX 0x7105 ≠ 15 → s1.V 15 = (testState [(0x200, 0x71), (0x201, 0x05)]).V 15) ∧
      s1.PC = ((testState [(0x200, 0x71), (0x201, 0x05)]).PC + 2) % 65536 ∧
      s1.I = (testState [(0x200, 0x71), (0x201, 0x05)]).I ∧
      s1.SP = (testState [(0x200, 0x71), (0x201, 0x05)]).SP ∧
      s1.stack = (testState [(0x200, 0x71), (0x201, 0x05)]).stack ∧
      s1.DT = (testState [(0x200, 0x71), (0x201, 0x05)]).DT ∧
      s1.ST = (testState [(0x200, 0x71), (0x201, 0x05)]).ST ∧
      s1.pixels = (testState [(0x200, 0x71), (0x201, 0x05)]).pixels ∧
      s1.memory = (testState [(0x200, 0x71), (0x201, 0x05)]).memory ∧
      s1.keys = (testState [(0x200, 0x71), (0x201, 0x05)]).keys ∧
      s1.keyCaptured = (testState [(0x200, 0x71), (0x201, 0x05)]).keyCaptured) :=
  ⟨by decide, by decide, by decide, by decide,
    C8_add_imm_frame (testState [(0x200, 0x71), (0x201, 0x05)]) 0x7105
      (by decide) (by decide) (by decide) (by decide) (by decide)⟩

/-- C9: `FX1E` adds VX to I with 16-bit wraparound and then unconditionally
writes VF: 1 if the resulting I exceeds 0x0FFF, 0 otherwise (the handler
executes `I += V[VX]; V[15] = (I > 0x0FFF) ? 1 : 0;`, testing the updated
I).  All registers other than VF keep their values and PC advances by 2. -/
theorem C9_addi_overflow_flag (s : Chip8) (op : Nat)
    (hPC : s.PC + 1 < 4096) (hop : op < 65536)
    (hb1 : s.memory s.PC = op / 256) (hb2 : s.memory (s.PC + 1) = op % 256)
    (htype : type op = 0xF) (hNN : NN op = 0x1E) :
    ∃ s1, step s = .ok (s1, []) ∧
      s1.I = (s.I + s.V (VX op)) % 65536 ∧
      s1.V 15 = (if (s.I + s.V (VX op)) % 65536 > 0x0FFF then 1 else 0) ∧
      (∀ j, j ≠ 15 → s1.V j = s.V j) ∧
      s1.PC = (s.PC + 2) % 65536 := by
  rw [step_eq s op hPC hop hb1 hb2]
  unfold exec
  rw [htype, hNN]
  norm_num
  exact ⟨upd_same _ _ _, fun j hj => upd_ne _ _ _ _ hj⟩

/-- C9 witness: `0xF11E` at PC = 0x200 with I = 0xFFE and V1 = 2 satisfies
the hypotheses and conclusion of `C9_addi_overflow_flag`. -/
theorem C9_addi_overflow_flag_witness :
    ({ testState [(0x200, 0xF1), (0x201, 0x1E)] with
        I := 0xFFE, V := upd (fun _ => 0) 1 2 } : Chip8).PC + 1 < 4096 ∧
    (0xF11E : Nat) < 65536 ∧
    type 0xF11E = 0xF ∧ NN 0xF11E = 0x1E ∧
    (∃ s1, step ({ testState [(0x200, 0xF1), (0x201, 0x1E)] with
        I := 0xFFE, V := upd (fun _ => 0) 1 2 } : Chip8) = .ok (s1, []) ∧
      s1.I = (({ testState [(0x200, 0xF1), (0x201, 0x1E)] with
        I := 0xFFE, V := upd (fun _ => 0) 1 2 } : Chip8).I +
          ({ testState [(0x200, 0xF1), (0x201, 0x1E)] with
        I := 0xFFE, V := upd (fun _ => 0) 1 2 } : Chip8).V (VX 0xF11E)) % 65536 ∧
      s1.V 15 = (if (({ testState [(0x200, 0xF1), (0x201, 0x1E)] with
        I := 0xFFE, V := upd (fun _ => 0) 1 2 } : Chip8).I +
          ({ testState [(0x200, 0xF1), (0x201, 0x1E)] with
        I := 0xFFE, V := upd (fun _ => 0) 1 2 } : Chip8).V (VX 0xF11E)) % 65536 > 0x0FFF
        then 1 else 0) ∧
      (∀ j, j ≠ 15 → s1.V j = ({ testState [(0x200, 0xF1), (0x201, 0x1E)] with
        I := 0xFFE, V := upd (fun _ => 0) 1 2 } : Chip8).V j) ∧
      s1.PC = (({ testState [(0x200, 0xF1), (0x201, 0x1E)] with
        I := 0xFFE, V := upd (fun _ => 0) 1 2 } : Chip8).PC + 2) % 65536) :=
  ⟨by decide, by decide, by decide, by decide,
    C9_addi_overflow_flag _ 0xF11E (by decide) (by decide) (by decide) (by decide)
      (by decide) (by decide)⟩

/-- C7: with the call stack full (SP = 16, i.e. 16 return addresses held),
a further `2NNN` call faults on `stack.at(SP)` with a `StackFault` before
mutating anything; and `00EE` with an empty stack (SP = 0) decrements the
8-bit SP, which wraps to 255, and faults on `stack.at(255)` with a
`StackFault` rather than silently wrapping.  Both are fatal: `step`
returns an error instead of a successor state. -/
theorem C7_stack_overflow_underflow_fault (s : Chip8) :
    (∀ op, s.PC + 1 < 4096 → op < 65536 → s.memory s.PC = op / 256 →
      s.memory (s.PC + 1) = op % 256 → type op = 0x2 → s.SP = 16 →
      step s = .error (.stackFault 16)) ∧
    (s.PC + 1 < 4096 → s.memory s.PC = 0x00 → s.memory (s.PC + 1) = 0xEE →
      s.SP = 0 → step s = .error (.stackFault 255)) := by
  constructor
  · intro op hPC hop hb1 hb2 htype hSP
    rw [step_eq s op hPC hop hb1 hb2]
    unfold exec
    rw [htype, hSP]
    norm_num
  · intro hPC hb1 hb2 hSP
    rw [step_eq s 0x00EE hPC (by norm_num) (by rw [hb1]) (by rw [hb2])]
    unfold exec
    rw [hSP]
    norm_num [type, NNN]

/-- C7 witness: `2345` with SP = 16 and `00EE` with SP = 0, both at
PC = 0x200, discharge the two parts of `C7_stack_overflow_underflow_fault`
and fault with a `StackFault`. -/
theorem C7_stack_overflow_underflow_fault_witness :
    (({ testState [(0x200, 0x23), (0x201, 0x45)] with SP := 16 } : Chip8).PC + 1 < 4096 ∧
      (0x2345 : Nat) < 65536 ∧ type 0x2345 = 0x2 ∧
      ({ testState [(0x200, 0x23), (0x201, 0x45)] with SP := 16 } : Chip8).SP = 16 ∧
      step ({ testState [(0x200, 0x23), (0x201, 0x45)] with SP := 16 } : Chip8) =
        .error (.stackFault 16)) ∧
    ((testState [(0x200, 0x00), (0x201, 0xEE)]).SP = 0 ∧
      step (testState [(0x200, 0x00), (0x201, 0xEE)]) = .error (.stackFault 255)) :=
  ⟨⟨by decide, by decide, by decide, by decide,
      (C7_stack_overflow_underflow_fault _).1 0x2345 (by decide) (by decide)
        (by decide) (by decide) (by decide) (by decide)⟩,
    ⟨by decide,
      (C7_stack_overflow_underflow_fault _).2 (by decide) (by decide)
        (by decide) (by decide)⟩⟩

/-- C1 (amended): an opcode whose secondary dispatch key has no handler —
family `0x8` with low nibble outside `{0..7, 0xE}`, family `0xE` with low
byte outside `{0x9E, 0xA1}`, or family `0xF` with low byte outside
`{0x07, 0x0A, 0x15, 0x18, 0x1E, 0x29, 0x33, 0x55, 0x65}` — executes
non-fatally in one step, producing exactly one `IllegalOpcode` report
(carrying the opcode and its fetch address), with PC advanced by 2 and
every other component of the machine state unchanged.  (Family `0x5`
opcodes with a nonzero low nibble, such as `0x5123`, are *not* in this
set: the primary-key `case 0x5` handles them as `SE Vx, Vy`; see the
counterexample.) -/
theorem C1_unhandled_secondary_reports_once (s : Chip8) (op : Nat)
    (hPC : s.PC + 1 < 4096) (hop : op < 65536)
    (hb1 : s.memory s.PC = op / 256) (hb2 : s.memory (s.PC + 1) = op % 256)
    (hkey : (type op = 0x8 ∧ 8 ≤ N op ∧ N op ≠ 0xE) ∨
            (type op = 0xE ∧ NN op ≠ 0x9E ∧ NN op ≠ 0xA1) ∨
            (type op = 0xF ∧ NN op ≠ 0x07 ∧ NN op ≠ 0x0A ∧ NN op ≠ 0x15 ∧
              NN op ≠ 0x18 ∧ NN op ≠ 0x1E ∧ NN op ≠ 0x29 ∧ NN op ≠ 0x33 ∧
              NN op ≠ 0x55 ∧ NN op ≠ 0x65)) :
    step s = .ok ({ s with PC := (s.PC + 2) % 65536 },
                  [.illegalOpcode op s.PC]) := by
  rw [step_eq s op hPC hop hb1 hb2]
  have hpc2 : (s.PC + 2) % 65536 - 2 = s.PC := by omega
  unfold exec
  rcases hkey with ⟨htype, hN1, hN2⟩ | ⟨htype, hN1, hN2⟩ |
    ⟨htype, h1, h2, h3, h4, h5, h6, h7, h8, h9⟩
  · rw [htype]
    norm_num
    have hn0 : ¬ N op = 0x0 := by omega
    have hn1 : ¬ N op = 0x1 := by omega
    have hn2 : ¬ N op = 0x2 := by omega
    have hn3 : ¬ N op = 0x3 := by omega
    have hn4 : ¬ N op = 0x4 := by omega
    have hn5 : ¬ N op = 0x5 := by omega
    have hn6 : ¬ N op = 0x6 := by omega
    have hn7 : ¬ N op = 0x7 := by omega
    have hnE : ¬ N op = 0xE := hN2
    rw [if_neg hn0, if_neg hn1, if_neg hn2, if_neg hn3, if_neg hn4, if_neg hn5,
      if_neg hn6, if_neg hn7, if_neg hnE, hpc2]
  · rw [htype]
    norm_num
    rw [if_neg hN1, if_neg hN2, hpc2]
  · rw [htype]
    norm_num
    rw [if_neg h1, if_neg h2, if_neg h3, if_neg h4, if_neg h5, if_neg h6,
      if_neg h7, if_neg h8, if_neg h9, hpc2]

/-- C1 witness: `0x8AB9` (family 0x8, low nibble 9 — no handler) at
PC = 0x200 discharges `C1_unhandled_secondary_reports_once`: one
`IllegalOpcode` report, PC advanced to 0x202, state otherwise unchanged. -/
theorem C1_unhandled_secondary_reports_once_witness :
    (testState [(0x200, 0x8A), (0x201, 0xB9)]).PC + 1 < 4096 ∧
    (0x8AB9 : Nat) < 65536 ∧
    (type 0x8AB9 = 0x8 ∧ 8 ≤ N 0x8AB9 ∧ N 0x8AB9 ≠ 0xE) ∧
    step (testState [(0x200, 0x8A), (0x201, 0xB9)]) =
      .ok ({ testState [(0x200, 0x8A), (0x201, 0xB9)] with
              PC := ((testState [(0x200, 0x8A), (0x201, 0xB9)]).PC + 2) % 65536 },
           [.illegalOpcode 0x8AB9 (testState [(0x200, 0x8A), (0x201, 0xB9)]).PC]) :=
  ⟨by decide, by decide, by decide,
    C1_unhandled_secondary_reports_once _ 0x8AB9 (by decide) (by decide) (by decide)
      (by decide) (Or.inl (by decide))⟩

/-- C1 counterexample: the example quoted in the claim `0x5123` (family 0x5, low
nibble 3) is *not* reported: `case 0x5` of the switch executes it as
`SE V1, V2` whatever the low nibble is.  On the cleared test state
V1 = V2 = 0, so the skip is taken: one step yields PC = 0x204 (advanced by
4, not 2) and an empty event list — not the single `IllegalOpcode` report
the claim asserts. -/
theorem C1_opcode_5123_not_reported_cex :
    (stepState (testState [(0x200, 0x51), (0x201, 0x23)])).PC = 0x204 ∧
    stepEvents (testState [(0x200, 0x51), (0x201, 0x23)]) = [] ∧
    stepEvents (testState [(0x200, 0x51), (0x201, 0x23)]) ≠
      [Event.illegalOpcode 0x5123 0x200] := by
  refine ⟨by decide, by decide, by decide⟩

/-- C3 (amended, X ≠ 0xF): `8XY4` sets VX to the low 8 bits of VX + VY and
VF to 1 exactly when the true sum exceeds 255, for all 8-bit register
contents; other registers keep their values and PC advances by 2.  (The
handler writes the carry into `V[15]` *before* writing the sum into
`V[VX]`, so for X = 0xF the sum overwrites the flag; see the
counterexample.) -/
theorem C3_add_reg_carry (s : Chip8) (op : Nat)
    (hPC : s.PC + 1 < 4096) (hop : op < 65536)
    (hb1 : s.memory s.PC = op / 256) (hb2 : s.memory (s.PC + 1) = op % 256)
    (htype : type op = 0x8) (hN : N op = 0x4) (hX : VX op ≠ 15)
    (hvx : s.V (VX op) < 256) (hvy : s.V (VY op) < 256) :
    ∃ s1, step s = .ok (s1, []) ∧
      s1.V (VX op) = (s.V (VX op) + s.V (VY op)) % 256 ∧
      s1.V 15 = (if s.V (VX op) + s.V (VY op) > 255 then 1 else 0) ∧
      (∀ j, j ≠ VX op → j ≠ 15 → s1.V j = s.V j) ∧
      s1.PC = (s.PC + 2) % 65536 := by
  rw [step_eq s op hPC hop hb1 hb2]
  unfold exec
  rw [htype, hN]
  norm_num
  refine ⟨upd_same _ _ _, ?_, fun j hjx hj15 => ?_⟩
  · rw [upd_ne _ _ _ _ (Ne.symm hX), upd_same]
  · rw [upd_ne _ _ _ _ hjx, upd_ne _ _ _ _ hj15]

/-- C3 witness: the instance quoted in the claim — `0x8014` with V0 = 0xFF,
V1 = 0x01 at PC = 0x200 — discharges `C3_add_reg_carry`: V0 becomes 0x00
and VF becomes 1. -/
theorem C3_add_reg_carry_witness :
    ({ testState [(0x200, 0x80), (0x201, 0x14)] with
        V := upd (upd (fun _ => 0) 0 0xFF) 1 0x01 } : Chip8).PC + 1 < 4096 ∧
    type 0x8014 = 0x8 ∧ N 0x8014 = 0x4 ∧ VX 0x8014 ≠ 15 ∧
    (∃ s1, step ({ testState [(0x200, 0x80), (0x201, 0x14)] with
        V := upd (upd (fun _ => 0) 0 0xFF) 1 0x01 } : Chip8) = .ok (s1, []) ∧
      s1.V (VX 0x8014) =
        (({ testState [(0x200, 0x80), (0x201, 0x14)] with
            V := upd (upd (fun _ => 0) 0 0xFF) 1 0x01 } : Chip8).V (VX 0x8014) +
         ({ testState [(0x200, 0x80), (0x201, 0x14)] with
            V := upd (upd (fun _ => 0) 0 0xFF) 1 0x01 } : Chip8).V (VY 0x8014)) % 256 ∧
      s1.V 15 =
        (if ({ testState [(0x200, 0x80), (0x201, 0x14)] with
            V := upd (upd (fun _ => 0) 0 0xFF) 1 0x01 } : Chip8).V (VX 0x8014) +
            ({ testState [(0x200, 0x80), (0x201, 0x14)] with
            V := upd (upd (fun _ => 0) 0 0xFF) 1 0x01 } : Chip8).V (VY 0x8014) > 255
         then 1 else 0) ∧
      (∀ j, j ≠ VX 0x8014 → j ≠ 15 →
        s1.V j = ({ testState [(0x200, 0x80), (0x201, 0x14)] with
            V := upd (upd (fun _ => 0) 0 0xFF) 1 0x01 } : Chip8).V j) ∧
      s1.PC = (({ testState [(0x200, 0x80), (0x201, 0x14)] with
            V := upd (upd (fun _ => 0) 0 0xFF) 1 0x01 } : Chip8).PC + 2) % 65536) :=
  ⟨by decide, by decide, by decide, by decide,
    C3_add_reg_carry _ 0x8014 (by decide) (by decide) (by decide) (by decide)
      (by decide) (by decide) (by decide) (by decide) (by decide)⟩

/-- C3 counterexample: `0x8F04` (X = 0xF, Y = 0) with VF = 0xFF and
V0 = 0x01.  The true sum 0x100 exceeds 255, so the claim demands VF = 1;
but the handler writes the carry into `V[15]` first and then stores
`temp & 0xFF = 0x00` into `V[VX] = V[15]`, leaving VF = 0. -/
theorem C3_add_reg_carry_cex :
    ({ testState [(0x200, 0x8F), (0x201, 0x04)] with
        V := upd (upd (fun _ => 0) 15 0xFF) 0 0x01 } : Chip8).V 15 = 0xFF ∧
    ({ testState [(0x200, 0x8F), (0x201, 0x04)] with
        V := upd (upd (fun _ => 0) 15 0xFF) 0 0x01 } : Chip8).V 0 = 0x01 ∧
    (stepState ({ testState [(0x200, 0x8F), (0x201, 0x04)] with
        V := upd (upd (fun _ => 0) 15 0xFF) 0 0x01 } : Chip8)).V 15 = 0 ∧
    (stepState ({ testState [(0x200, 0x8F), (0x201, 0x04)] with
        V := upd (upd (fun _ => 0) 15 0xFF) 0 0x01 } : Chip8)).V 15 ≠ 1 := by
  refine ⟨by decide, by decide, by decide, by decide⟩

/-- C4 (amended, X ≠ 0xF and Y ≠ 0xF): `8XY5` sets VF to 1 exactly when no
borrow occurs (old VX ≥ old VY) and VX to old VX − old VY modulo 256, for
all 8-bit register contents; other registers keep their values and PC
advances by 2.  (The handler writes the flag into `V[15]` *before* the
subtraction, so when X or Y is 0xF the flag write aliases an operand; see
the counterexample.) -/
theorem C4_sub_reg_borrow (s : Chip8) (op : Nat)
    (hPC : s.PC + 1 < 4096) (hop : op < 65536)
    (hb1 : s.memory s.PC = op / 256) (hb2 : s.memory (s.PC + 1) = op % 256)
    (htype : type op = 0x8) (hN : N op = 0x5)
    (hX : VX op ≠ 15) (hY : VY op ≠ 15)
    (hvx : s.V (VX op) < 256) (hvy : s.V (VY op) < 256) :
    ∃ s1, step s = .ok (s1, []) ∧
      s1.V (VX op) = (s.V (VX op) + 256 - s.V (VY op)) % 256 ∧
      s1.V 15 = (if s.V (VX op) ≥ s.V (VY op) then 1 else 0) ∧
      (∀ j, j ≠ VX op → j ≠ 15 → s1.V j = s.V j) ∧
      s1.PC = (s.PC + 2) % 65536 := by
  rw [step_eq s op hPC hop hb1 hb2]
  unfold exec
  rw [htype, hN]
  norm_num
  refine ⟨?_, ?_, fun j hjx hj15 => ?_⟩
  · rw [upd_same, upd_ne _ _ _ _ hX, upd_ne _ _ _ _ hY]
    simp only [sub8]
    rw [Nat.mod_eq_of_lt hvx, Nat.mod_eq_of_lt hvy]
  · rw [upd_ne _ _ _ _ (Ne.symm hX), upd_same]
    split_ifs with h1 h2 h2 <;> omega
  · rw [upd_ne _ _ _ _ hjx, upd_ne _ _ _ _ hj15]

/-- C4 witness: the instance quoted in the claim — `0x8015` with V0 = 0x02,
V1 = 0x01 at PC = 0x200 — discharges `C4_sub_reg_borrow`: V0 becomes 0x01
and VF becomes 1 (no borrow). -/
theorem C4_sub_reg_borrow_witness :
    ({ testState [(0x200, 0x80), (0x201, 0x15)] with
        V := upd (upd (fun _ => 0) 0 0x02) 1 0x01 } : Chip8).PC + 1 < 4096 ∧
    type 0x8015 = 0x8 ∧ N 0x8015 = 0x5 ∧ VX 0x8015 ≠ 15 ∧ VY 0x8015 ≠ 15 ∧
    (∃ s1, step ({ testState [(0x200, 0x80), (0x201, 0x15)] with
        V := upd (upd (fun _ => 0) 0 0x02) 1 0x01 } : Chip8) = .ok (s1, []) ∧
      s1.V (VX 0x8015) =
        (({ testState [(0x200, 0x80), (0x201, 0x15)] with
            V := upd (upd (fun _ => 0) 0 0x02) 1 0x01 } : Chip8).V (VX 0x8015) + 256 -
         ({ testState [(0x200, 0x80), (0x201, 0x15)] with
            V := upd (upd (fun _ => 0) 0 0x02) 1 0x01 } : Chip8).V (VY 0x8015)) % 256 ∧
      s1.V 15 =
        (if ({ testState [(0x200, 0x80), (0x201, 0x15)] with
            V := upd (upd (fun _ => 0) 0 0x02) 1 0x01 } : Chip8).V (VX 0x8015) ≥
            ({ testState [(0x200, 0x80), (0x201, 0x15)] with
            V := upd (upd (fun _ => 0) 0 0x02) 1 0x01 } : Chip8).V (VY 0x8015)
         then 1 else 0) ∧
      (∀ j, j ≠ VX 0x8015 → j ≠ 15 →
        s1.V j = ({ testState [(0x200, 0x80), (0x201, 0x15)] with
            V := upd (upd (fun _ => 0) 0 0x02) 1 0x01 } : Chip8).V j) ∧
      s1.PC = (({ testState [(0x200, 0x80), (0x201, 0x15)] with
            V := upd (upd (fun _ => 0) 0 0x02) 1 0x01 } : Chip8).PC + 2) % 65536) :=
  ⟨by decide, by decide, by decide, by decide, by decide,
    C4_sub_reg_borrow _ 0x8015 (by decide) (by decide) (by decide) (by decide)
      (by decide) (by decide) (by decide) (by decide) (by decide) (by decide)⟩

/-- C4 counterexample: `0x80F5` (X = 0, Y = 0xF) with V0 = 5 and VF = 7.
The claim demands V0 = 5 − 7 mod 256 = 0xFE; but the handler first writes
the borrow flag 0 into `V[15]` (7 > 5) and only then executes
`V[VX] -= V[VY]`, which now subtracts the *flag* value 0, leaving V0 = 5. -/
theorem C4_sub_reg_borrow_cex :
    ({ testState [(0x200, 0x80), (0x201, 0xF5)] with
        V := upd (upd (fun _ => 0) 0 5) 15 7 } : Chip8).V 0 = 5 ∧
    ({ testState [(0x200, 0x80), (0x201, 0xF5)] with
        V := upd (upd (fun _ => 0) 0 5) 15 7 } : Chip8).V 15 = 7 ∧
    (stepState ({ testState [(0x200, 0x80), (0x201, 0xF5)] with
        V := upd (upd (fun _ => 0) 0 5) 15 7 } : Chip8)).V 0 = 5 ∧
    (stepState ({ testState [(0x200, 0x80), (0x201, 0xF5)] with
        V := upd (upd (fun _ => 0) 0 5) 15 7 } : Chip8)).V 0 ≠ 0xFE := by
  refine ⟨by decide, by decide, by decide, by decide⟩

theorem tick_ST_one (s : Chip8) (hST : s.ST = 1) :
    (tick_timers s).1.ST = 0 ∧ (tick_timers s).2 = [.stopTone] := by
  unfold tick_timers
  by_cases hDT : s.DT > 0 <;> simp [hDT, hST]

theorem tick_ST_zero (s : Chip8) (hST : s.ST = 0) :
    (tick_timers s).1.ST = 0 ∧ (tick_timers s).2 = [.stopTone] := by
  unfold tick_timers
  by_cases hDT : s.DT > 0 <;> simp [hDT, hST]

/-- C2 (amended): executing `FX18` with VX = 1 loads ST = 1 (and starts the
tone); the next 60 Hz tick yields ST = 0 and issues one stop-tone signal.
However the stop signal is level-triggered, not edge-triggered: the timer
block runs `if(!ST) m_sound.stop();` on *every* tick, so each subsequent
tick while ST stays 0 issues the stop-tone signal again (idempotently)
rather than firing exactly once. -/
theorem C2_sound_timer_stop_level (s : Chip8) (op : Nat)
    (hPC : s.PC + 1 < 4096) (hop : op < 65536)
    (hb1 : s.memory s.PC = op / 256) (hb2 : s.memory (s.PC + 1) = op % 256)
    (htype : type op = 0xF) (hNN : NN op = 0x18) (hvx : s.V (VX op) = 1) :
    step s = .ok ({ s with PC := (s.PC + 2) % 65536, ST := 1 }, [.startTone]) ∧
    (tick_timers { s with PC := (s.PC + 2) % 65536, ST := 1 }).1.ST = 0 ∧
    (tick_timers { s with PC := (s.PC + 2) % 65536, ST := 1 }).2 = [.stopTone] ∧
    (tick_timers (tick_timers { s with PC := (s.PC + 2) % 65536, ST := 1 }).1).2 =
      [.stopTone] := by
  refine ⟨?_, (tick_ST_one _ rfl).1, (tick_ST_one _ rfl).2,
    (tick_ST_zero _ (tick_ST_one _ rfl).1).2⟩
  rw [step_eq s op hPC hop hb1 hb2]
  unfold exec
  rw [htype, hNN]
  norm_num [hvx]

/-- C2 witness: `0xF118` with V1 = 1 at PC = 0x200 discharges
`C2_sound_timer_stop_level`. -/
theorem C2_sound_timer_stop_level_witness :
    ({ testState [(0x200, 0xF1), (0x201, 0x18)] with
        V := upd (fun _ => 0) 1 1 } : Chip8).PC + 1 < 4096 ∧
    type 0xF118 = 0xF ∧ NN 0xF118 = 0x18 ∧
    ({ testState [(0x200, 0xF1), (0x201, 0x18)] with
        V := upd (fun _ => 0) 1 1 } : Chip8).V (VX 0xF118) = 1 ∧
    (step ({ testState [(0x200, 0xF1), (0x201, 0x18)] with
        V := upd (fun _ => 0) 1 1 } : Chip8) =
      .ok ({ ({ testState [(0x200, 0xF1), (0x201, 0x18)] with
        V := upd (fun _ => 0) 1 1 } : Chip8) with
          PC := (({ testState [(0x200, 0xF1), (0x201, 0x18)] with
            V := upd (fun _ => 0) 1 1 } : Chip8).PC + 2) % 65536, ST := 1 },
        [.startTone]) ∧
      (tick_timers { ({ testState [(0x200, 0xF1), (0x201, 0x18)] with
        V := upd (fun _ => 0) 1 1 } : Chip8) with
          PC := (({ testState [(0x200, 0xF1), (0x201, 0x18)] with
            V := upd (fun _ => 0) 1 1 } : Chip8).PC + 2) % 65536, ST := 1 }).1.ST = 0 ∧
      (tick_timers { ({ testState [(0x200, 0xF1), (0x201, 0x18)] with
        V := upd (fun _ => 0) 1 1 } : Chip8) with
          PC := (({ testState [(0x200, 0xF1), (0x201, 0x18)] with
            V := upd (fun _ => 0) 1 1 } : Chip8).PC + 2) % 65536, ST := 1 }).2 =
        [.stopTone] ∧
      (tick_timers (tick_timers { ({ testState [(0x200, 0xF1), (0x201, 0x18)] with
        V := upd (fun _ => 0) 1 1 } : Chip8) with
          PC := (({ testState [(0x200, 0xF1), (0x201, 0x18)] with
            V := upd (fun _ => 0) 1 1 } : Chip8).PC + 2) % 65536, ST := 1 }).1).2 =
        [.stopTone]) :=
  ⟨by decide, by decide, by decide, by decide,
    C2_sound_timer_stop_level _ 0xF118 (by decide) (by decide) (by decide)
      (by decide) (by decide) (by decide) (by decide)⟩

/-- C2 counterexample: after `0xF118` (ST := 1) and one tick (ST = 0, one
stop-tone signal), a *second* tick with ST still 0 issues the stop-tone
signal again — the code stops the sound on every tick with ST = 0, so the
claimed "no further stop-tone signals fire on subsequent ticks while ST
stays 0" is false. -/
theorem C2_stop_tone_reissued_cex :
    stepEvents ({ testState [(0x200, 0xF1), (0x201, 0x18)] with
        V := upd (fun _ => 0) 1 1 } : Chip8) = [Event.startTone] ∧
    (tick_timers (stepState ({ testState [(0x200, 0xF1), (0x201, 0x18)] with
        V := upd (fun _ => 0) 1 1 } : Chip8))).1.ST = 0 ∧
    (tick_timers (stepState ({ testState [(0x200, 0xF1), (0x201, 0x18)] with
        V := upd (fun _ => 0) 1 1 } : Chip8))).2 = [Event.stopTone] ∧
    (tick_timers (tick_timers (stepState ({ testState [(0x200, 0xF1), (0x201, 0x18)] with
        V := upd (fun _ => 0) 1 1 } : Chip8))).1).2 = [Event.stopTone] ∧
    (tick_timers (tick_timers (stepState ({ testState [(0x200, 0xF1), (0x201, 0x18)] with
        V := upd (fun _ => 0) 1 1 } : Chip8))).1).2 ≠ [] := by
  refine ⟨by decide, by decide, by decide, by decide, by decide⟩

theorem findPressedFrom_eq_none (keys : Nat → Bool) :
    ∀ c i, (∀ j, i ≤ j → j < i + c → keys j = false) →
      findPressedFrom keys i c = none := by
  intro c
  induction c with
  | zero => intro i _; rfl
  | succ c ih =>
    intro i h
    unfold findPressedFrom
    rw [h i le_rfl (by omega)]
    exact ih (i + 1) (fun j h1 h2 => h j (by omega) (by omega))

theorem findPressedFrom_eq_some (keys : Nat → Bool) :
    ∀ c i k, i ≤ k → k < i + c → keys k = true →
      (∀ j, i ≤ j → j < k → keys j = false) →
      findPressedFrom keys i c = some k := by
  intro c
  induction c with
  | zero => intro i k h1 h2 _ _; omega
  | succ c ih =>
    intro i k h1 h2 hk hlow
    unfold findPressedFrom
    by_cases hik : i = k
    · subst hik
      rw [hk]
      simp
    · rw [hlow i le_rfl (by omega)]
      exact ih (i + 1) k (by omega) (by omega) hk (fun j ha hb => hlow j (by omega) hb)

/-- C6: the `FX0A` blocking-key stall.  (a) While `m_key_captured` is
clear and no key is pressed, a step leaves the machine state completely
unchanged (PC is re-decremented by 2, so the same instruction is
re-fetched).  (b) When the first pressed key is k, a step stores k into
VX, sets `m_key_captured`, and still leaves PC unchanged.  (c) While
`m_key_captured` is set and key VX is still pressed, a step leaves the
state completely unchanged.  (d) Once key VX is observed released, the
step clears `m_key_captured` and PC advances by 2 past the `FX0A`. -/
theorem C6_wait_key_stall (s : Chip8) (op : Nat)
    (hPC : s.PC + 1 < 4096) (hop : op < 65536)
    (hb1 : s.memory s.PC = op / 256) (hb2 : s.memory (s.PC + 1) = op % 256)
    (htype : type op = 0xF) (hNN : NN op = 0x0A) :
    (s.keyCaptured = false → (∀ j, j < 16 → s.keys j = false) →
      step s = .ok (s, [])) ∧
    (∀ k, s.keyCaptured = false → k < 16 → s.keys k = true →
      (∀ j, j < k → s.keys j = false) →
      step s = .ok ({ s with V := upd s.V (VX op) k, keyCaptured := true }, [])) ∧
    (s.keyCaptured = true → s.V (VX op) < 16 → s.keys (s.V (VX op)) = true →
      step s = .ok (s, [])) ∧
    (s.keyCaptured = true → s.V (VX op) < 16 → s.keys (s.V (VX op)) = false →
      step s = .ok ({ s with PC := (s.PC + 2) % 65536, keyCaptured := false }, [])) := by
  have hpc0 : ((s.PC + 2) % 65536 + 65534) % 65536 = s.PC := by omega
  refine ⟨?_, ?_, ?_, ?_⟩
  · intro hkc hnone
    rw [step_eq s op hPC hop hb1 hb2]
    unfold exec
    rw [htype, hNN]
    have hfp : firstPressed s.keys = none :=
      findPressedFrom_eq_none s.keys 16 0 (fun j _ h2 => hnone j (by omega))
    norm_num [hkc, hfp, hpc0]
    rw [← hkc]
  · intro k hkc hk16 hkp hlow
    rw [step_eq s op hPC hop hb1 hb2]
    unfold exec
    rw [htype, hNN]
    have hfp : firstPressed s.keys = some k :=
      findPressedFrom_eq_some s.keys 16 0 k (by omega) (by omega) hkp
        (fun j _ hb => hlow j hb)
    norm_num [hkc, hfp, hpc0]
  · intro hkc hv16 hkp
    rw [step_eq s op hPC hop hb1 hb2]
    unfold exec
    rw [htype, hNN]
    norm_num [hkc, hv16, hkp, hpc0]
    rw [← hkc]
  · intro hkc hv16 hkr
    rw [step_eq s op hPC hop hb1 hb2]
    unfold exec
    rw [htype, hNN]
    norm_num [hkc, hv16, hkr, hpc0]

/-- C6 witness: `0xF10A` at PC = 0x200.  With no key pressed and
`m_key_captured` clear, `C6_wait_key_stall` part (a) applies: the step
returns the state unchanged (PC still 0x200, V1 untouched). -/
theorem C6_wait_key_stall_witness :
    (testState [(0x200, 0xF1), (0x201, 0x0A)]).PC + 1 < 4096 ∧
    type 0xF10A = 0xF ∧ NN 0xF10A = 0x0A ∧
    (testState [(0x200, 0xF1), (0x201, 0x0A)]).keyCaptured = false ∧
    step (testState [(0x200, 0xF1), (0x201, 0x0A)]) =
      .ok (testState [(0x200, 0xF1), (0x201, 0x0A)], []) :=
  ⟨by decide, by decide, by decide, by decide,
    (C6_wait_key_stall _ 0xF10A (by decide) (by decide) (by decide) (by decide)
      (by decide) (by decide)).1 (by decide) (by decide)⟩

/-- C10: every frame-buffer offset computed inside the DXYN draw loop is
`x + 64*y` with x masked into 0..63 and y masked into 0..31, hence strictly
below 2048 = 64*32; consequently the draw loop never touches any pixel cell
at an index ≥ 2048, so the unchecked `m_pixels[offset]` write stays inside
the 64×32 pixel array. -/
theorem C10_draw_offset_in_bounds :
    (∀ vx vy xsp ysp, drawOffset vx vy xsp ysp < 2048) ∧
    (∀ op pts (s s1 : Chip8), drawGo op pts s = .ok s1 →
      ∀ o, 2048 ≤ o → s1.pixels o = s.pixels o) := by
  have hoff : ∀ vx vy xsp ysp, drawOffset vx vy xsp ysp < 2048 := by
    intro vx vy xsp ysp
    unfold drawOffset
    have h1 : (vx + xsp) % 64 < 64 := Nat.mod_lt _ (by norm_num)
    have h2 : (vy + ysp) % 32 < 32 := Nat.mod_lt _ (by norm_num)
    omega
  refine ⟨hoff, ?_⟩
  intro op pts
  induction pts with
  | nil =>
    intro s s1 h o ho
    cases h
    rfl
  | cons p rest ih =>
    obtain ⟨ysp, xsp⟩ := p
    intro s s1 h o ho
    simp only [drawGo] at h
    by_cases hb : s.I + ysp < 4096
    · rw [if_pos hb] at h
      by_cases hbit : s.memory (s.I + ysp) &&& (0x80 >>> xsp) ≠ 0
      · rw [if_pos hbit] at h
        rw [ih _ _ h o ho]
        have hlt := hoff (s.V (VX op)) (s.V (VY op)) xsp ysp
        have hne : o ≠ drawOffset (s.V (VX op)) (s.V (VY op)) xsp ysp := by omega
        by_cases hcol : s.pixels (drawOffset (s.V (VX op)) (s.V (VY op)) xsp ysp) ≠ 0
        · rw [if_pos hcol]
          exact upd_ne _ _ _ _ hne
        · rw [if_neg hcol]
          exact upd_ne _ _ _ _ hne
      · rw [if_neg hbit] at h
        exact ih _ _ h o ho
    · rw [if_neg hb] at h
      exact Except.noConfusion h

/-- C10 witness: the offset of a sprite pixel drawn from (63, 0) wraps and
stays below 2048, and a concrete one-point draw-loop run leaves the
out-of-range pixel cell 2500 untouched, applying both parts of
`C10_draw_offset_in_bounds`. -/
theorem C10_draw_offset_in_bounds_witness :
    drawOffset 63 0 1 0 < 2048 ∧
    (drawGoState 0xD011 [(0, 0)]
        ({ testState [(0x300, 0x80)] with I := 0x300 } : Chip8)).pixels 2500 =
      ({ testState [(0x300, 0x80)] with I := 0x300 } : Chip8).pixels 2500 :=
  ⟨C10_draw_offset_in_bounds.1 63 0 1 0,
    C10_draw_offset_in_bounds.2 0xD011 [(0, 0)]
      ({ testState [(0x300, 0x80)] with I := 0x300 } : Chip8)
      (drawGoState 0xD011 [(0, 0)] ({ testState [(0x300, 0x80)] with I := 0x300 } : Chip8))
      rfl 2500 (by norm_num)⟩

theorem drawPts_mem {n : Nat} {p : Nat × Nat} :
    p ∈ drawPts n ↔ p.1 < n ∧ p.2 < 8 := by
  obtain ⟨a, b⟩ := p
  simp only [drawPts, List.mem_flatMap, List.mem_map, List.mem_range, Prod.mk.injEq]
  constructor
  · rintro ⟨y, hy, x, hx, he1, he2⟩
    subst he1; subst he2
    exact ⟨hy, hx⟩
  · rintro ⟨h1, h2⟩
    exact ⟨a, h1, b, h2, rfl, rfl⟩

theorem range_pairwise_of (R : Nat → Nat → Prop) :
    ∀ m, (∀ a b, a < b → b < m → R a b) → (List.range m).Pairwise R := by
  intro m
  induction m with
  | zero => intro _; simp
  | succ k ih =>
    intro h
    rw [List.range_succ, List.pairwise_append]
    refine ⟨ih (fun a b hab hbk => h a b hab (by omega)), by simp, ?_⟩
    intro a ha b hb
    rw [List.mem_singleton] at hb
    subst hb
    exact h a b (List.mem_range.mp ha) (by omega)

theorem drawPts_pairwise (vx vy : Nat) :
    ∀ n, n ≤ 32 → (drawPts n).Pairwise
      (fun p q => drawOffset vx vy p.2 p.1 ≠ drawOffset vx vy q.2 q.1) := by
  intro n
  induction n with
  | zero => intro _; simp [drawPts]
  | succ k ih =>
    intro hk
    have hps : drawPts (k + 1) =
        drawPts k ++ (List.range 8).map (fun xsp => (k, xsp)) := by
      simp [drawPts, List.range_succ]
    rw [hps, List.pairwise_append]
    refine ⟨ih (by omega), ?_, ?_⟩
    · rw [List.pairwise_map]
      apply range_pairwise_of
      intro a b hab hb8
      simp only [drawOffset]
      omega
    · intro p hp q hq
      rw [drawPts_mem] at hp
      simp only [List.mem_map, List.mem_range] at hq
      obtain ⟨x, hx8, rfl⟩ := hq
      simp only [drawOffset]
      have h1 : p.1 < k := hp.1
      omega

theorem drawGo_spec (op vx vy i : Nat) (mem : Nat → Nat)
    (hX15 : VX op ≠ 15) (hY15 : VY op ≠ 15) :
    ∀ (pts : List (Nat × Nat)) (s : Chip8),
      s.V (VX op) = vx → s.V (VY op) = vy → s.I = i → s.memory = mem →
      (∀ p ∈ pts, i + p.1 < 4096) →
      pts.Pairwise (fun p q => drawOffset vx vy p.2 p.1 ≠ drawOffset vx vy q.2 q.1) →
      ∃ s1, drawGo op pts s = .ok s1 ∧
        (∀ p ∈ pts, mem (i + p.1) &&& (0x80 >>> p.2) ≠ 0 →
          s1.pixels (drawOffset vx vy p.2 p.1) =
            s.pixels (drawOffset vx vy p.2 p.1) ^^^ 0xFFFFFFFF) ∧
        (∀ o, (∀ p ∈ pts, mem (i + p.1) &&& (0x80 >>> p.2) ≠ 0 →
            drawOffset vx vy p.2 p.1 ≠ o) → s1.pixels o = s.pixels o) ∧
        ((∃ p ∈ pts, mem (i + p.1) &&& (0x80 >>> p.2) ≠ 0 ∧
            s.pixels (drawOffset vx vy p.2 p.1) ≠ 0) → s1.V 15 = 1) ∧
        ((∀ p ∈ pts, mem (i + p.1) &&& (0x80 >>> p.2) ≠ 0 →
            s.pixels (drawOffset vx vy p.2 p.1) = 0) → s1.V 15 = s.V 15) ∧
        (∀ j, j ≠ 15 → s1.V j = s.V j) ∧
        s1.PC = s.PC ∧ s1.SP = s.SP ∧ s1.I = s.I ∧ s1.memory = s.memory ∧
        s1.stack = s.stack ∧ s1.DT = s.DT ∧ s1.ST = s.ST ∧ s1.keys = s.keys ∧
        s1.keyCaptured = s.keyCaptured ∧ s1.rand = s.rand := by
  intro pts
  induction pts with
  | nil =>
    intro s _ _ _ _ _ _
    exact ⟨s, rfl, by simp, fun o _ => rfl, by simp, fun _ => rfl, fun j _ => rfl,
      rfl, rfl, rfl, rfl, rfl, rfl, rfl, rfl, rfl, rfl⟩
  | cons hd rest ih =>
    obtain ⟨ysp, xsp⟩ := hd
    intro s hsvx hsvy hsI hsmem hbound hpair
    subst hsvx
    subst hsvy
    subst hsI
    subst hsmem
    rw [List.pairwise_cons] at hpair
    obtain ⟨hsep, hpairr⟩ := hpair
    have hb0 : s.I + ysp < 4096 := hbound _ (List.mem_cons_self _ _)
    simp only [drawGo]
    rw [if_pos hb0]
    by_cases hbit : s.memory (s.I + ysp) &&& (0x80 >>> xsp) ≠ 0
    · rw [if_pos hbit]
      by_cases hcol : s.pixels (drawOffset (s.V (VX op)) (s.V (VY op)) xsp ysp) ≠ 0
      · rw [if_pos hcol]
        obtain ⟨s1, hrun, A1, B1, F1, F2, VF, hfPC, hfSP, hfI, hfmem, hfstack,
            hfDT, hfST, hfkeys, hfkc, hfrand⟩ :=
          ih ({ s with
                  V := upd s.V 15 1
                  pixels := upd s.pixels (drawOffset (s.V (VX op)) (s.V (VY op)) xsp ysp)
                    (s.pixels (drawOffset (s.V (VX op)) (s.V (VY op)) xsp ysp) ^^^
                      0xFFFFFFFF) } : Chip8)
            (upd_ne _ _ _ _ hX15) (upd_ne _ _ _ _ hY15) rfl rfl
            (fun p hp => hbound p (List.mem_cons_of_mem _ hp)) hpairr
        refine ⟨s1, hrun, ?_, ?_, ?_, ?_, ?_, hfPC, hfSP, hfI, hfmem, hfstack,
          hfDT, hfST, hfkeys, hfkc, hfrand⟩
        · intro p hp hhit
          rcases List.mem_cons.mp hp with he | hm
          · subst he
            exact (B1 _ (fun q hq _ => (hsep q hq).symm)).trans (upd_same _ _ _)
          · exact (A1 p hm hhit).trans
              (congrArg (· ^^^ 0xFFFFFFFF) (upd_ne _ _ _ _ (Ne.symm (hsep p hm))))
        · intro o ho
          have hoh : drawOffset (s.V (VX op)) (s.V (VY op)) xsp ysp ≠ o :=
            ho _ (List.mem_cons_self _ _) hbit
          exact (B1 o (fun q hq hh => ho q (List.mem_cons_of_mem _ hq) hh)).trans
            (upd_ne _ _ _ _ (Ne.symm hoh))
        · intro _
          rcases Classical.em (∃ p ∈ rest,
              s.memory (s.I + p.1) &&& (0x80 >>> p.2) ≠ 0 ∧
              upd s.pixels (drawOffset (s.V (VX op)) (s.V (VY op)) xsp ysp)
                (s.pixels (drawOffset (s.V (VX op)) (s.V (VY op)) xsp ysp) ^^^ 0xFFFFFFFF)
                (drawOffset (s.V (VX op)) (s.V (VY op)) p.2 p.1) ≠ 0) with hex | hnex
          · exact F1 hex
          · have hall : ∀ p ∈ rest, s.memory (s.I + p.1) &&& (0x80 >>> p.2) ≠ 0 →
                upd s.pixels (drawOffset (s.V (VX op)) (s.V (VY op)) xsp ysp)
                  (s.pixels (drawOffset (s.V (VX op)) (s.V (VY op)) xsp ysp) ^^^ 0xFFFFFFFF)
                  (drawOffset (s.V (VX op)) (s.V (VY op)) p.2 p.1) = 0 := by
              intro p hp hh
              by_contra hne0
              exact hnex ⟨p, hp, hh, hne0⟩
            exact (F2 hall).trans (upd_same s.V 15 1)
        · intro hall
          exact absurd (hall _ (List.mem_cons_self _ _) hbit) hcol
        · intro j hj
          exact (VF j hj).trans (upd_ne _ _ _ _ hj)
      · rw [if_neg hcol]
        obtain ⟨s1, hrun, A1, B1, F1, F2, VF, hfPC, hfSP, hfI, hfmem, hfstack,
            hfDT, hfST, hfkeys, hfkc, hfrand⟩ :=
          ih ({ s with
                  pixels := upd s.pixels (drawOffset (s.V (VX op)) (s.V (VY op)) xsp ysp)
                    (s.pixels (drawOffset (s.V (VX op)) (s.V (VY op)) xsp ysp) ^^^
                      0xFFFFFFFF) } : Chip8)
            rfl rfl rfl rfl
            (fun p hp => hbound p (List.mem_cons_of_mem _ hp)) hpairr
        refine ⟨s1, hrun, ?_, ?_, ?_, ?_, VF, hfPC, hfSP, hfI, hfmem, hfstack,
          hfDT, hfST, hfkeys, hfkc, hfrand⟩
        · intro p hp hhit
          rcases List.mem_cons.mp hp with he | hm
          · subst he
            exact (B1 _ (fun q hq _ => (hsep q hq).symm)).trans (upd_same _ _ _)
          · exact (A1 p hm hhit).trans
              (congrArg (· ^^^ 0xFFFFFFFF) (upd_ne _ _ _ _ (Ne.symm (hsep p hm))))
        · intro o ho
          have hoh : drawOffset (s.V (VX op)) (s.V (VY op)) xsp ysp ≠ o :=
            ho _ (List.mem_cons_self _ _) hbit
          exact (B1 o (fun q hq hh => ho q (List.mem_cons_of_mem _ hq) hh)).trans
            (upd_ne _ _ _ _ (Ne.symm hoh))
        · rintro ⟨p, hp, hhit, hcolp⟩
          rcases List.mem_cons.mp hp with he | hm
          · subst he
            exact absurd hcolp hcol
          · refine F1 ⟨p, hm, hhit, ?_⟩
            intro h0
            exact hcolp
              ((upd_ne s.pixels (drawOffset (s.V (VX op)) (s.V (VY op)) xsp ysp)
                (s.pixels (drawOffset (s.V (VX op)) (s.V (VY op)) xsp ysp) ^^^ 0xFFFFFFFF)
                (drawOffset (s.V (VX op)) (s.V (VY op)) p.2 p.1)
                (Ne.symm (hsep p hm))).symm.trans h0)
        · intro hall
          refine F2 (fun p hp hh => ?_)
          exact (upd_ne s.pixels (drawOffset (s.V (VX op)) (s.V (VY op)) xsp ysp)
            (s.pixels (drawOffset (s.V (VX op)) (s.V (VY op)) xsp ysp) ^^^ 0xFFFFFFFF)
            (drawOffset (s.V (VX op)) (s.V (VY op)) p.2 p.1)
            (Ne.symm (hsep p hp))).trans (hall p (List.mem_cons_of_mem _ hp) hh)
    · rw [if_neg hbit]
      obtain ⟨s1, hrun, A1, B1, F1, F2, VF, hfPC, hfSP, hfI, hfmem, hfstack,
          hfDT, hfST, hfkeys, hfkc, hfrand⟩ :=
        ih s rfl rfl rfl rfl
          (fun p hp => hbound p (List.mem_cons_of_mem _ hp)) hpairr
      refine ⟨s1, hrun, ?_, ?_, ?_, ?_, VF, hfPC, hfSP, hfI, hfmem, hfstack,
        hfDT, hfST, hfkeys, hfkc, hfrand⟩
      · intro p hp hhit
        rcases List.mem_cons.mp hp with he | hm
        · subst he
          exact absurd hhit hbit
        · exact A1 p hm hhit
      · intro o ho
        exact B1 o (fun q hq hh => ho q (List.mem_cons_of_mem _ hq) hh)
      · rintro ⟨p, hp, hhit, hcolp⟩
        rcases List.mem_cons.mp hp with he | hm
        · subst he
          exact absurd hhit hbit
        · exact F1 ⟨p, hm, hhit, hcolp⟩
      · intro hall
        exact F2 (fun p hp hh => hall p (List.mem_cons_of_mem _ hp) hh)

theorem exec_draw (s : Chip8) (op : Nat) (htype : type op = 0xD) (s1 : Chip8)
    (h : drawGo op (drawPts (N op)) { s with V := upd s.V 15 0 } = .ok s1) :
    exec s op = .ok (s1, []) := by
  unfold exec
  rw [htype]
  norm_num
  rw [h]

/-- C5 (amended, X ≠ 0xF and Y ≠ 0xF, sprite rows readable:
I + N ≤ 4096): `DXYN` XORs each set bit of the N-row sprite at
`memory[I..I+N)` into the frame buffer at `(VX + x_sprite) mod 64`,
`(VY + y_sprite) mod 32`; every pixel not covered by a set sprite bit is
unchanged; VF is set to 1 exactly when some covered pixel was previously
set (collision) and to 0 otherwise; other registers, I, memory, SP, the
stack and the timers are unchanged and PC advances by 2.  The claimed
consequences (drawing the same sprite twice restores the buffer with
VF = 1 on the second draw; an 8-wide sprite at (63, 0) wraps to x = 0)
follow from this characterization.  (For X = 0xF or Y = 0xF the handler
zeroes `V[15]` before reading the coordinates and updates it mid-draw, so
the sprite is not drawn at the original (VX, VY); see the
counterexample.) -/
theorem C5_draw_xor_collision (s : Chip8) (op : Nat)
    (hPC : s.PC + 1 < 4096) (hop : op < 65536)
    (hb1 : s.memory s.PC = op / 256) (hb2 : s.memory (s.PC + 1) = op % 256)
    (htype : type op = 0xD) (hX : VX op ≠ 15) (hY : VY op ≠ 15)
    (hIb : s.I + N op ≤ 4096) :
    ∃ s1, step s = .ok (s1, []) ∧
      s1.PC = (s.PC + 2) % 65536 ∧
      (∀ ysp xsp, ysp < N op → xsp < 8 →
        s.memory (s.I + ysp) &&& (0x80 >>> xsp) ≠ 0 →
        s1.pixels (drawOffset (s.V (VX op)) (s.V (VY op)) xsp ysp) =
          s.pixels (drawOffset (s.V (VX op)) (s.V (VY op)) xsp ysp) ^^^ 0xFFFFFFFF) ∧
      (∀ o, (∀ ysp xsp, ysp < N op → xsp < 8 →
          s.memory (s.I + ysp) &&& (0x80 >>> xsp) ≠ 0 →
          drawOffset (s.V (VX op)) (s.V (VY op)) xsp ysp ≠ o) →
        s1.pixels o = s.pixels o) ∧
      ((∃ ysp xsp, ysp < N op ∧ xsp < 8 ∧
          s.memory (s.I + ysp) &&& (0x80 >>> xsp) ≠ 0 ∧
          s.pixels (drawOffset (s.V (VX op)) (s.V (VY op)) xsp ysp) ≠ 0) →
        s1.V 15 = 1) ∧
      ((∀ ysp xsp, ysp < N op → xsp < 8 →
          s.memory (s.I + ysp) &&& (0x80 >>> xsp) ≠ 0 →
          s.pixels (drawOffset (s.V (VX op)) (s.V (VY op)) xsp ysp) = 0) →
        s1.V 15 = 0) ∧
      (∀ j, j ≠ 15 → s1.V j = s.V j) ∧
      s1.I = s.I ∧ s1.memory = s.memory ∧ s1.DT = s.DT ∧ s1.ST = s.ST ∧
      s1.SP = s.SP ∧ s1.stack = s.stack := by
  have hN16 : N op < 16 := by
    unfold N
    omega
  obtain ⟨s1, hrun, A1, B1, F1, F2, VF, hfPC, hfSP, hfI, hfmem, hfstack,
      hfDT, hfST, hfkeys, hfkc, hfrand⟩ :=
    drawGo_spec op (s.V (VX op)) (s.V (VY op)) s.I s.memory hX hY
      (drawPts (N op))
      ({ s with PC := (s.PC + 2) % 65536, V := upd s.V 15 0 } : Chip8)
      (upd_ne _ _ _ _ hX) (upd_ne _ _ _ _ hY) rfl rfl
      (fun p hp => by have := (drawPts_mem.mp hp).1; omega)
      (drawPts_pairwise (s.V (VX op)) (s.V (VY op)) (N op) (by omega))
  refine ⟨s1, ?_, hfPC, ?_, ?_, ?_, ?_, ?_, hfI, hfmem, hfDT, hfST, hfSP, hfstack⟩
  · rw [step_eq s op hPC hop hb1 hb2]
    exact exec_draw _ op htype s1 hrun
  · intro ysp xsp h1 h2 hhit
    exact A1 (ysp, xsp) (drawPts_mem.mpr ⟨h1, h2⟩) hhit
  · intro o ho
    exact B1 o (fun p hp hh =>
      ho p.1 p.2 (drawPts_mem.mp hp).1 (drawPts_mem.mp hp).2 hh)
  · rintro ⟨ysp, xsp, h1, h2, hhit, hcol⟩
    exact F1 ⟨(ysp, xsp), drawPts_mem.mpr ⟨h1, h2⟩, hhit, hcol⟩
  · intro hall
    exact (F2 (fun p hp hh =>
      hall p.1 p.2 (drawPts_mem.mp hp).1 (drawPts_mem.mp hp).2 hh)).trans
      (upd_same s.V 15 0)
  · intro j hj
    exact (VF j hj).trans (upd_ne s.V 15 0 j hj)

/-- C5 witness: `0xD011` on `drawState` (sprite byte 0x80 at I = 0x300,
V0 = V1 = 0) discharges `C5_draw_xor_collision`: the one set sprite bit is
XORed into the frame buffer at offset 0, nothing else changes, and VF = 0
(no collision on a cleared buffer). -/
theorem C5_draw_xor_collision_witness :
    drawState.PC + 1 < 4096 ∧ (0xD011 : Nat) < 65536 ∧
    drawState.memory drawState.PC = 0xD011 / 256 ∧
    drawState.memory (drawState.PC + 1) = 0xD011 % 256 ∧
    type 0xD011 = 0xD ∧ VX 0xD011 ≠ 15 ∧ VY 0xD011 ≠ 15 ∧
    drawState.I + N 0xD011 ≤ 4096 ∧
    (∃ s1, step drawState = .ok (s1, []) ∧
      s1.PC = (drawState.PC + 2) % 65536 ∧
      (∀ ysp xsp, ysp < N 0xD011 → xsp < 8 →
        drawState.memory (drawState.I + ysp) &&& (0x80 >>> xsp) ≠ 0 →
        s1.pixels (drawOffset (drawState.V (VX 0xD011)) (drawState.V (VY 0xD011)) xsp ysp) =
          drawState.pixels
            (drawOffset (drawState.V (VX 0xD011)) (drawState.V (VY 0xD011)) xsp ysp) ^^^
            0xFFFFFFFF) ∧
      (∀ o, (∀ ysp xsp, ysp < N 0xD011 → xsp < 8 →
          drawState.memory (drawState.I + ysp) &&& (0x80 >>> xsp) ≠ 0 →
          drawOffset (drawState.V (VX 0xD011)) (drawState.V (VY 0xD011)) xsp ysp ≠ o) →
        s1.pixels o = drawState.pixels o) ∧
      ((∃ ysp xsp, ysp < N 0xD011 ∧ xsp < 8 ∧
          drawState.memory (drawState.I + ysp) &&& (0x80 >>> xsp) ≠ 0 ∧
          drawState.pixels
            (drawOffset (drawState.V (VX 0xD011)) (drawState.V (VY 0xD011)) xsp ysp) ≠ 0) →
        s1.V 15 = 1) ∧
      ((∀ ysp xsp, ysp < N 0xD011 → xsp < 8 →
          drawState.memory (drawState.I + ysp) &&& (0x80 >>> xsp) ≠ 0 →
          drawState.pixels
            (drawOffset (drawState.V (VX 0xD011)) (drawState.V (VY 0xD011)) xsp ysp) = 0) →
        s1.V 15 = 0) ∧
      (∀ j, j ≠ 15 → s1.V j = drawState.V j) ∧
      s1.I = drawState.I ∧ s1.memory = drawState.memory ∧ s1.DT = drawState.DT ∧
      s1.ST = drawState.ST ∧ s1.SP = drawState.SP ∧ s1.stack = drawState.stack) :=
  ⟨by decide, by decide, by decide, by decide, by decide, by decide, by decide, by decide,
    C5_draw_xor_collision drawState 0xD011 (by decide) (by decide) (by decide)
      (by decide) (by decide) (by decide) (by decide) (by decide)⟩

/-- C5 counterexample: `0xDF01` (X = 0xF, Y = 0, N = 1) on `drawStateF`
with VF = 5, V0 = 0.  The claim demands the sprite be drawn at
(VX, VY) = (5, 0), setting pixel offset 5; but the handler executes
`V[15] = 0` *before* reading the coordinates, so the sprite is drawn with
x-base `V[15] = 0`: pixel 0 is set and pixel 5 stays clear. -/
theorem C5_draw_aliased_base_cex :
    drawStateF.V (VX 0xDF01) = 5 ∧
    (stepState drawStateF).pixels 5 = 0 ∧
    (stepState drawStateF).pixels 0 = 0xFFFFFFFF := by
  refine ⟨by decide, by decide, by decide⟩
